import Mathlib

/-!
Shallow embedding of the Medallion ETL orchestration core
(ETLAgentXMCP: `state.py`, `graph_workflow.py`, the agents under
`agents/`, and the pipeline entry point in `server.py`).

External collaborators (LLM endpoints, Databricks SQL warehouse, GitHub)
are modelled as oracles: each agent invocation consumes the collaborator
response it would have received, and the full run consumes a stream of
such responses indexed by the global step counter.  All tool wrappers in
`tools/` catch exceptions internally and return status dictionaries, so
collaborator responses are total values; the only places the Python code
can raise are the bare `state["source_table"].split(".")` unpacking in
`codegen_agent.py` line 62 and `executor_agent.py` line 80, modelled with
`Except`.
-/

namespace Medallion

/-- Schema information as returned by `get_table_schema` / carried in
`analysis_result["schema"]` (a dict with at least `columns` and
`column_count`). -/
structure SchemaInfo where
  column_count : Nat
  columns : List String
  deriving DecidableEq

/-- Data-quality metrics dict produced by `compute_data_quality_score`. -/
structure QualityMetrics where
  completeness_ratio : Rat
  records_with_nulls : Nat
  null_counts : List (String × Nat)
  deriving DecidableEq

/-- One sample row: column name / rendered value pairs. -/
abbrev Row := List (String × String)

/-- The `LayerContext` TypedDict from `state.py`. -/
structure LayerContext where
  layer_name : String
  table_name : String
  schema : SchemaInfo
  sample_data : List Row
  row_count : Nat
  data_quality_metrics : QualityMetrics
  transformation_summary : String
  execution_timestamp : String
  pr_url : String
  pr_merged : Bool
  deriving DecidableEq

/-- One entry of `pr_history` (shape used by `pr_creator` and read back by
`server._format_pr_history`). -/
structure PRRecord where
  layer : String
  pr_number : Nat
  pr_url : String
  branch_name : String
  merged : Bool
  quality_score : Rat
  deriving DecidableEq

/-- The `ETLState` TypedDict from `state.py`.  `pr_merged` is the extra key
written by `executor_agent.py` line 74 even though it is not declared in the
TypedDict.  `messages` carries opaque chat messages. -/
structure ETLState where
  user_query : String
  source_table : String
  full_pipeline : Bool
  transformation_rules : String
  current_layer : String
  target_layers : List String
  bronze_context : Option LayerContext
  silver_context : Option LayerContext
  gold_context : Option LayerContext
  transformation_plan : String
  test_plan : String
  pyspark_code : String
  test_code : String
  sql_queries : List String
  review_status : String
  review_comments : List String
  code_quality_score : Rat
  current_pr_url : String
  current_pr_number : Nat
  current_pr_merged : Bool
  pr_history : List PRRecord
  execution_status : String
  current_table_output : String
  rows_processed : Nat
  data_quality_metrics : List (String × Rat)
  layers_completed : List String
  layers_remaining : List String
  executive_summary : String
  messages : List String
  current_agent : String
  workflow_status : String
  error_log : List String
  pipeline_start_time : String
  pipeline_end_time : String
  pr_merged : Bool
  deriving DecidableEq

/-! ## Collaborator oracles -/

/-- Outcome of one `groq_chat_complete` + `json.loads` round in
`planner_agent.py`: successfully parsed plan, a JSON decode failure (with
the raw text), or any other exception (caught by the generic handler). -/
inductive PlannerLLM where
  | parsed (transformation_plan : String) (test_plan : String)
  | jsonError (content : String)
  | exn (msg : String)
  deriving DecidableEq

/-- Outcome of the LLM call + `json.loads` in `codegen_agent.py`. -/
inductive CodegenLLM where
  | parsed (sql_queries : List String) (pyspark_code : String) (test_code : String)
  | jsonError (content : String)
  | exn (msg : String)
  deriving DecidableEq

/-- Result dict of one `validate_sql_syntax.invoke` call (the tool catches
exceptions internally and always returns `valid` plus an error string). -/
structure Validation where
  valid : Bool
  error : String
  deriving DecidableEq

/-- Outcome of the LLM call + `json.loads` in `reviewer_agent.py`: parsed
review dict, JSON decode failure, or any other exception. -/
inductive ReviewLLM where
  | parsed (status : String) (quality_score : Rat) (comments : List String)
  | jsonError
  | exn (msg : String)
  deriving DecidableEq

/-- Result of a layer-execution tool call inside the executor's `try`
(`create_bronze_table` etc.): a result dict, or an exception caught by the
`except` clause. -/
inductive ExecOutcome where
  | ok (status : String) (rows_processed : Nat) (dq : List (String × Rat)) (error : String)
  | raised (msg : String)
  deriving DecidableEq

/-- Result dict of `analyze_layer_output.invoke` in `context_tools.py`:
`status == "success"` with the analysis payload, or `status == "error"`
with a message. -/
inductive AnalysisResult where
  | success (schema : SchemaInfo) (sample_data : List Row) (row_count : Nat)
      (data_quality : QualityMetrics)
  | failure (error : String)
  deriving DecidableEq

/-- Outcome of the LLM call in `summary_agent.py`. -/
inductive SummaryLLM where
  | ok (content : String)
  | exn (msg : String)
  deriving DecidableEq

/-! ## String helpers

Kernel-computable models of the Python string operations the agents use
(`str.split(sep)` with a non-empty separator, and `str.strip()`), written
by structural recursion so that concrete runs evaluate by `decide`. -/

/-- Does `sep` occur at the head of `cs`? -/
def leadMatch : List Char → List Char → Bool
  | [], _ => true
  | _ :: _, [] => false
  | a :: as, b :: bs => a = b && leadMatch as bs

/-- Fuel-driven worker for `pySplit`; `fuel ≥ cs.length` always suffices
because every step consumes at least one character. -/
def splitFuel (sep : List Char) : Nat → List Char → List Char → List (List Char)
  | 0, cs, acc => [acc.reverse ++ cs]
  | fuel + 1, cs, acc =>
      match cs with
      | [] => [acc.reverse]
      | c :: rest =>
          if leadMatch sep cs then
            acc.reverse :: splitFuel sep fuel (cs.drop sep.length) []
          else
            splitFuel sep fuel rest (c :: acc)

/-- Python `s.split(sep)` for a non-empty separator: splits at every
occurrence, keeping empty pieces (so `"a..b".split(".") = ["a","","b"]`
and a trailing separator yields a trailing `""`). -/
def pySplit (sep s : String) : List String :=
  (splitFuel sep.data s.data.length s.data []).map fun cs => String.mk cs

/-- Python `s.strip()`: drop whitespace from both ends. -/
def pyTrim (s : String) : String :=
  String.mk (((s.data.dropWhile Char.isWhitespace).reverse.dropWhile
    Char.isWhitespace).reverse)

/-! ## Agent step functions (translated from `agents/`) -/

/-- The `PlannerAgent.__call__` body (`planner_agent.py` lines 38-129):
try to parse the LLM plan, fall back to the raw text on a JSON decode
error, and record other exceptions in `error_log`; always stamps
`current_agent` and `workflow_status`. -/
def plannerCall (llm : PlannerLLM) (s : ETLState) : ETLState :=
  let s' :=
    match llm with
    | .parsed plan tests =>
        { s with transformation_plan := plan, test_plan := tests }
    | .jsonError content =>
        { s with transformation_plan := content,
                 test_plan := "Generate comprehensive unit tests covering edge cases and data quality" }
    | .exn msg =>
        { s with error_log := s.error_log ++ ["Planning error: " ++ msg],
                 transformation_plan := "Error in planning: " ++ msg,
                 test_plan := "Unable to generate test plan" }
  { s' with current_agent := "planner",
            workflow_status := s.current_layer ++ "_planned" }

/-- Markdown fallback of `codegen_agent.py` lines 144-150: take every
fenced block opened by three backticks followed by `sql`, cut it at the
next closing fence, and keep the stripped non-blank ones. -/
def extractSqlBlocks (content : String) : List String :=
  ((pySplit "```sql" content).drop 1).filterMap fun block =>
    let query := (pySplit "```" block).headD ""
    if pyTrim query ≠ "" then some (pyTrim query) else none

/-- The `CodeGenAgent.__call__` body (`codegen_agent.py` lines 40-166).
The tuple unpacking of `source_table.split(".")` at line 62 happens before
the `try` block, so a source table that is not `catalog.schema.table`
raises out of the agent (modelled as `Except.error`). -/
def codegenCall (llm : CodegenLLM) (s : ETLState) : Except String ETLState :=
  match pySplit "." s.source_table with
  | [catalog, schema, table] =>
      let target := catalog ++ "." ++ schema ++ "_" ++ s.current_layer ++ "."
        ++ table ++ "_" ++ s.current_layer
      let s' :=
        match llm with
        | .parsed qs py tests =>
            { s with sql_queries := qs, pyspark_code := py, test_code := tests,
                     current_table_output := target }
        | .jsonError content =>
            { s with sql_queries := extractSqlBlocks content,
                     pyspark_code := content,
                     test_code := "# Tests to be generated manually",
                     current_table_output := target }
        | .exn msg =>
            { s with error_log := s.error_log ++ ["CodeGen error: " ++ msg],
                     sql_queries := [], pyspark_code := "" }
      .ok { s' with current_agent := "codegen",
                    workflow_status := s.current_layer ++ "_coded" }
  | _ => .error "ValueError: source_table does not unpack into catalog.schema.table"

/-- Syntax-validation loop of `reviewer_agent.py` lines 60-67: the i-th
query gets the i-th tool response; `syntax_valid` is the conjunction. -/
def syntaxValid (n : Nat) (validate : Nat → Validation) : Bool :=
  (List.range n).all fun i => (validate i).valid

/-- The `ReviewerAgent.__call__` body (`reviewer_agent.py` lines 40-151):
an invalid syntax check overrides a parsed LLM verdict to
`NEEDS_REVISION` and caps the score at 60; the JSON-decode fallback
approves iff the syntax check passed; other exceptions force
`NEEDS_REVISION` with score 0 and an `error_log` entry. -/
def reviewerCall (validate : Nat → Validation) (llm : ReviewLLM) (s : ETLState) :
    ETLState :=
  let sv := syntaxValid s.sql_queries.length validate
  let s' :=
    match llm with
    | .parsed status score comments =>
        if sv then
          { s with review_status := status, code_quality_score := score,
                   review_comments := comments }
        else
          { s with review_status := "NEEDS_REVISION",
                   code_quality_score := min score 60,
                   review_comments :=
                     "SQL syntax validation failed - see errors above" :: comments }
    | .jsonError =>
        { s with review_status := if sv then "APPROVED" else "NEEDS_REVISION",
                 code_quality_score := if sv then 75 else 50,
                 review_comments := ["Review completed with limited analysis"] }
    | .exn msg =>
        { s with error_log := s.error_log ++ ["Review error: " ++ msg],
                 review_status := "NEEDS_REVISION",
                 code_quality_score := 0,
                 review_comments := ["Review failed: " ++ msg] }
  { s' with current_agent := "reviewer",
            workflow_status := s.current_layer ++ "_reviewed" }

/-- Modelled from the spec: the Submit step (`PRCreatorAgent`), whose
source file `agents/pr_creator_agent.py` is not under `src/` (only the
line importing it in `agents/__init__.py` and its node registration remain).  Per
spec §4.2 it creates the approval handle (PR number / URL / branch) and
appends one submission record (layer name, handle, score) to the
append-only `pr_history`; it touches no layer-tracking field. -/
def prCreatorCall (pr_number : Nat) (pr_url branch_name : String) (s : ETLState) :
    ETLState :=
  { s with current_pr_number := pr_number,
           current_pr_url := pr_url,
           current_pr_merged := false,
           pr_history := s.pr_history ++
             [⟨s.current_layer, pr_number, pr_url, branch_name, false,
               s.code_quality_score⟩],
           current_agent := "pr_creator",
           workflow_status := s.current_layer ++ "_pr_created" }

/-- The `ExecutorAgent.__call__` body (`executor_agent.py` lines 33-114).
`merged` is the `pr_status.get("merged", False)` of this invocation's
`check_pr_status` call.  When the PR is not merged the agent returns at
line 71 having only set the two status fields.  When it is merged, the
tuple unpacking of `source_table.split(".")` at line 80 can raise (it is
outside the `try`); otherwise the layer tool's result dict (or an
exception caught by the `except`) determines `execution_status`. -/
def executorCall (merged : Bool) (outcome : ExecOutcome) (s : ETLState) :
    Except String ETLState :=
  if merged = false then
    .ok { s with execution_status := "awaiting_pr_merge",
                 workflow_status := "awaiting_merge" }
  else
    let s := { s with pr_merged := true, current_pr_merged := true }
    match pySplit "." s.source_table with
    | [catalog, schema, table] =>
        let target := catalog ++ "." ++ schema ++ "_" ++ s.current_layer ++ "."
          ++ table ++ "_" ++ s.current_layer
        let s := { s with current_table_output := target }
        match outcome with
        | .ok status rows dq error =>
            let s := { s with execution_status := status,
                              rows_processed := rows,
                              data_quality_metrics := dq,
                              current_agent := "executor",
                              workflow_status := s.current_layer ++ "_executed" }
            if status = "success" then .ok s
            else .ok { s with error_log := s.error_log ++ ["Execution failed: " ++ error] }
        | .raised msg =>
            .ok { s with
                  execution_status := "failed",
                  error_log := s.error_log ++
                    ["Exception during " ++ s.current_layer ++ " execution: " ++ msg] }
    | _ => .error "ValueError: source_table does not unpack into catalog.schema.table"

/-- The `ContextEnrichmentAgent.__call__` body
(`context_enrichment_agent.py` lines 34-108).  On a successful analysis it
builds the `LayerContext`, stores it in the slot matching
`current_layer`, appends the layer to `layers_completed` (if absent),
removes its first occurrence from `layers_remaining` (if present), and
stamps `current_agent`; on failure it only appends to `error_log`.
`now` is the `datetime.now().isoformat()` timestamp. -/
def contextEnrichmentCall (res : AnalysisResult) (now : String) (s : ETLState) :
    ETLState :=
  match res with
  | .success schema sample rowCount dq =>
      let ctx : LayerContext :=
        { layer_name := s.current_layer,
          table_name := s.current_table_output,
          schema := schema,
          sample_data := sample,
          row_count := rowCount,
          data_quality_metrics := dq,
          transformation_summary := s.transformation_plan,
          execution_timestamp := now,
          pr_url := s.current_pr_url,
          pr_merged := s.current_pr_merged }
      let s :=
        if s.current_layer = "bronze" then { s with bronze_context := some ctx }
        else if s.current_layer = "silver" then { s with silver_context := some ctx }
        else if s.current_layer = "gold" then { s with gold_context := some ctx }
        else s
      let s :=
        if s.current_layer ∈ s.layers_completed then s
        else { s with layers_completed := s.layers_completed ++ [s.current_layer] }
      let s :=
        if s.current_layer ∈ s.layers_remaining then
          { s with layers_remaining := s.layers_remaining.erase s.current_layer }
        else s
      { s with current_agent := "context_enrichment" }
  | .failure err =>
      { s with error_log := s.error_log ++ ["Context enrichment failed: " ++ err] }

/-- The `SummaryAgent.__call__` body: sets `executive_summary` from the
LLM (or a fallback text on exception, with an `error_log` entry), then
stamps `current_agent` and the final `workflow_status`. -/
def summaryCall (llm : SummaryLLM) (s : ETLState) : ETLState :=
  let s' :=
    match llm with
    | .ok content => { s with executive_summary := content }
    | .exn msg =>
        { s with error_log := s.error_log ++ ["Summary error: " ++ msg],
                 executive_summary :=
                   "Pipeline execution completed for " ++ s.user_query ++ "." }
  { s' with current_agent := "summary", workflow_status := "completed" }

/-! ## Conditional routers (`graph_workflow.py`) -/

/-- The router after the reviewer (`graph_workflow.py` lines 82-99): it
reads `review_status` and returns the next node name without assigning to
the state, so it is modelled as returning the name together with the
unchanged state. -/
def should_create_pr (s : ETLState) : String × ETLState :=
  if s.review_status = "APPROVED" then ("pr_creator", s) else ("summary", s)

/-- The router after context enrichment (`graph_workflow.py` lines
113-149): when `layers_remaining` is non-empty it assigns
`state["current_layer"] = layers_remaining[0]` (line 131) and returns
`"planner"`; otherwise it returns `"summary"` with the state untouched. -/
def should_process_next_layer (s : ETLState) : String × ETLState :=
  match s.layers_remaining with
  | [] => ("summary", s)
  | next :: _ => ("planner", { s with current_layer := next })

/-! ## The compiled graph as a step machine -/

/-- Graph nodes registered in `create_medallion_pipeline_graph`, plus the
terminal pseudo-node reached after `summary → END`. -/
inductive Node where
  | planner
  | codegen
  | reviewer
  | pr_creator
  | executor
  | context_enrichment
  | summary
  | done
  deriving DecidableEq

/-- Mapping from the node names the routers return to the registered
nodes (LangGraph dispatches conditional edges by the returned string; an
unregistered name would be a graph error). -/
def nodeOfName (name : String) : Option Node :=
  if name = "planner" then some .planner
  else if name = "codegen" then some .codegen
  else if name = "reviewer" then some .reviewer
  else if name = "pr_creator" then some .pr_creator
  else if name = "executor" then some .executor
  else if name = "context_enrichment" then some .context_enrichment
  else if name = "summary" then some .summary
  else none

/-- A point of the run: the node about to execute and the current state. -/
structure Config where
  node : Node
  s : ETLState
  deriving DecidableEq

/-- Stream of collaborator responses, indexed by the global step counter:
step `n` of a run consumes index `n` of each component.  `validate n i` is
the response to the `i`-th `validate_sql_syntax` call of the reviewer
invocation at step `n`; `merged n` is `pr_status.get("merged", False)` at
step `n`. -/
structure Env where
  planner : Nat → PlannerLLM
  codegen : Nat → CodegenLLM
  validate : Nat → Nat → Validation
  review : Nat → ReviewLLM
  prNumber : Nat → Nat
  prUrl : Nat → String
  prBranch : Nat → String
  merged : Nat → Bool
  exec : Nat → ExecOutcome
  analysis : Nat → AnalysisResult
  now : Nat → String
  summary : Nat → SummaryLLM

/-- One transition of the compiled graph: run the node's agent on the
state, then follow the (conditional) edge out of the node, as wired in
`create_medallion_pipeline_graph`.  An uncaught Python exception in an
agent is an `Except.error`. -/
def stepRun (env : Env) (n : Nat) (c : Config) : Except String Config :=
  match c.node with
  | .planner => .ok ⟨.codegen, plannerCall (env.planner n) c.s⟩
  | .codegen =>
      match codegenCall (env.codegen n) c.s with
      | .ok s' => .ok ⟨.reviewer, s'⟩
      | .error e => .error e
  | .reviewer =>
      let s' := reviewerCall (env.validate n) (env.review n) c.s
      let r := should_create_pr s'
      match nodeOfName r.1 with
      | some nd => .ok ⟨nd, r.2⟩
      | none => .error "unknown node"
  | .pr_creator =>
      .ok ⟨.executor, prCreatorCall (env.prNumber n) (env.prUrl n) (env.prBranch n) c.s⟩
  | .executor =>
      match executorCall (env.merged n) (env.exec n) c.s with
      | .ok s' => .ok ⟨.context_enrichment, s'⟩
      | .error e => .error e
  | .context_enrichment =>
      let s' := contextEnrichmentCall (env.analysis n) (env.now n) c.s
      let r := should_process_next_layer s'
      match nodeOfName r.1 with
      | some nd => .ok ⟨nd, r.2⟩
      | none => .error "unknown node"
  | .summary => .ok ⟨.done, summaryCall (env.summary n) c.s⟩
  | .done => .ok c

/-- Run the graph for at most `fuel` transitions starting at global step
counter `n`; stops early on reaching the terminal node, and propagates an
uncaught exception. -/
def runFrom (env : Env) : Nat → Nat → Config → Except String Config
  | 0, _, c => .ok c
  | fuel + 1, n, c =>
      if c.node = .done then .ok c
      else
        match stepRun env n c with
        | .ok c' => runFrom env fuel (n + 1) c'
        | .error e => .error e

/-- Number of times the run visits the `planner` node within the first
`fuel` transitions (counting the node about to execute, stopping at the
terminal node or at an exception). -/
def plannerVisits (env : Env) : Nat → Nat → Config → Nat
  | 0, _, _ => 0
  | fuel + 1, n, c =>
      if c.node = .done then 0
      else
        let add := if c.node = .planner then 1 else 0
        match stepRun env n c with
        | .ok c' => add + plannerVisits env fuel (n + 1) c'
        | .error _ => add

/-! ## The pipeline entry point (`server.py`) -/

/-- The initial `ETLState` literal of `run_full_medallion_pipeline`
(`server.py` lines 94-129), after the `rules.txt` read filled
`transformation_rules` (`rules` is that content, or the default on
`FileNotFoundError`); `t0` is the start timestamp. -/
def initialState (user_query source_table rules t0 : String) : ETLState :=
  { user_query := user_query,
    source_table := source_table,
    full_pipeline := true,
    transformation_rules := rules,
    current_layer := "bronze",
    target_layers := ["bronze", "silver", "gold"],
    bronze_context := none,
    silver_context := none,
    gold_context := none,
    transformation_plan := "",
    test_plan := "",
    pyspark_code := "",
    test_code := "",
    sql_queries := [],
    review_status := "",
    review_comments := [],
    code_quality_score := 0,
    current_pr_url := "",
    current_pr_number := 0,
    current_pr_merged := false,
    pr_history := [],
    execution_status := "",
    current_table_output := "",
    rows_processed := 0,
    data_quality_metrics := [],
    layers_completed := [],
    layers_remaining := ["bronze", "silver", "gold"],
    executive_summary := "",
    messages := [],
    current_agent := "",
    workflow_status := "initializing",
    error_log := [],
    pipeline_start_time := t0,
    pipeline_end_time := "",
    pr_merged := false }

/-- The initial configuration: `graph.add_edge(START, "planner")`. -/
def initConfig (user_query source_table rules t0 : String) : Config :=
  ⟨.planner, initialState user_query source_table rules t0⟩

/-- What the MCP tool hands back to its caller: the terminal state
(rendered through `_format_pipeline_summary`), or the
"Pipeline Execution Failed" text when `ainvoke` raised. -/
inductive PipelineOutcome where
  | completed (s : ETLState)
  | failedMsg (e : String)
  deriving DecidableEq

/-- The `try`/`except` around `MEDALLION_PIPELINE.ainvoke` in
`run_full_medallion_pipeline` (`server.py` lines 152-177): a normal
return yields the final state (with `pipeline_end_time` stamped to `t1`);
any exception is caught and converted to the failure text, discarding the
state. -/
def run_full_medallion_pipeline (env : Env) (fuel : Nat)
    (user_query source_table rules t0 t1 : String) : PipelineOutcome :=
  match runFrom env fuel 0 (initConfig user_query source_table rules t0) with
  | .ok c => .completed { c.s with pipeline_end_time := t1 }
  | .error e => .failedMsg ("Pipeline execution failed: " ++ e)

/-! ## Reachability -/

/-- Configurations reachable from the initial configuration of a run,
over arbitrary collaborator responses at every step. -/
inductive Reach (user_query source_table rules t0 : String) : Config → Prop where
  | init : Reach user_query source_table rules t0
      (initConfig user_query source_table rules t0)
  | step {c c' : Config} (env : Env) (n : Nat) :
      Reach user_query source_table rules t0 c →
      stepRun env n c = .ok c' →
      Reach user_query source_table rules t0 c'

/-! ## Invariants, measure, and bounds used by the proofs -/

/-- Is this `analyze_layer_output` result dict a `status == "success"`? -/
def AnalysisResult.isSuccess : AnalysisResult → Bool
  | .success _ _ _ _ => true
  | .failure _ => false

/-- The per-layer processing nodes (everything except the summary step
and the terminal pseudo-node). -/
def cycleNode : Node → Bool
  | .summary => false
  | .done => false
  | _ => true

/-- The canonical layer order used by `run_full_medallion_pipeline`. -/
def medallionLayers : List String := ["bronze", "silver", "gold"]

/-- Partition shape of the layer-tracking fields: `layers_completed` is a
front segment of the canonical layer list and `layers_remaining` the
matching back segment. -/
def LayerPartition (s : ETLState) : Prop :=
  s.target_layers = medallionLayers ∧
  ∃ k, k ≤ 3 ∧ s.layers_completed = medallionLayers.take k ∧
    s.layers_remaining = medallionLayers.drop k

/-- A context slot is populated only for a layer already recorded in
`layers_completed`. -/
def ContextsMarked (s : ETLState) : Prop :=
  (s.bronze_context.isSome → "bronze" ∈ s.layers_completed) ∧
  (s.silver_context.isSome → "silver" ∈ s.layers_completed) ∧
  (s.gold_context.isSome → "gold" ∈ s.layers_completed)

/-- Run invariant: the partition shape, the context-slot bookkeeping, and
(at the per-layer nodes) that `current_layer` is the head of
`layers_remaining`. -/
def Inv (c : Config) : Prop :=
  LayerPartition c.s ∧ ContextsMarked c.s ∧
  (cycleNode c.node = true → c.s.layers_remaining.head? = some c.s.current_layer)

/-- Context slots only ever go from `none` to `some` and then keep their
value. -/
def CtxMono (s t : ETLState) : Prop :=
  (∀ v, s.bronze_context = some v → t.bronze_context = some v) ∧
  (∀ v, s.silver_context = some v → t.silver_context = some v) ∧
  (∀ v, s.gold_context = some v → t.gold_context = some v)

/-- Layer-tracking fields an agent leaves untouched. -/
def SameLayerFields (s t : ETLState) : Prop :=
  t.target_layers = s.target_layers ∧ t.layers_completed = s.layers_completed ∧
  t.layers_remaining = s.layers_remaining ∧ t.current_layer = s.current_layer ∧
  t.bronze_context = s.bronze_context ∧ t.silver_context = s.silver_context ∧
  t.gold_context = s.gold_context

/-- Position of a per-layer node within one layer iteration, counted down
from the planner. -/
def rank : Node → Nat
  | .planner => 5
  | .codegen => 4
  | .reviewer => 3
  | .pr_creator => 2
  | .executor => 1
  | _ => 0

/-- Termination measure: strictly decreases at every transition of a run
whose enrichment analyses all succeed. -/
def mu (c : Config) : Nat :=
  match c.node with
  | .done => 0
  | .summary => 1
  | n => 2 + 6 * (c.s.layers_remaining.length - 1) + rank n

/-- Upper bound on the number of future planner visits of a run whose
enrichment analyses all succeed. -/
def pvBound (c : Config) : Nat :=
  match c.node with
  | .done => 0
  | .summary => 0
  | .planner => c.s.layers_remaining.length
  | _ => c.s.layers_remaining.length - 1

/-! ## Concrete runs used by witnesses and counterexamples -/

/-- A response stream in which every collaborator call succeeds: plans and
code parse, the review approves, every PR is merged, execution succeeds
and every enrichment analysis succeeds. -/
def envAllGood : Env :=
  { planner := fun _ => .parsed "plan" "tests",
    codegen := fun _ => .parsed ["SELECT 1"] "" "# tests",
    validate := fun _ _ => ⟨true, ""⟩,
    review := fun _ => .parsed "APPROVED" 90 [],
    prNumber := fun n => n,
    prUrl := fun _ => "https://example.test/pr",
    prBranch := fun _ => "etl-branch",
    merged := fun _ => true,
    exec := fun _ => .ok "success" 10 [] "",
    analysis := fun _ => .success ⟨1, ["c1"]⟩ [] 10 ⟨1, 0, []⟩,
    now := fun _ => "2025-11-14T00:00:00",
    summary := fun _ => .ok "all done" }

/-- Like `envAllGood` except that every `analyze_layer_output` call comes
back with `status == "error"`. -/
def envEnrichFails : Env :=
  { envAllGood with analysis := fun _ => .failure "boom" }

/-- The initial configuration of a concrete run. -/
def cfg0 : Config := initConfig "clean the data" "cat.sch.tbl" "rules" "t0"

/-- The configuration after the six steps that complete the bronze layer
under `envAllGood` (planner, codegen, reviewer, pr_creator, executor,
context_enrichment). -/
def cfgAfterBronze : Config :=
  match runFrom envAllGood 6 0 cfg0 with
  | .ok c => c
  | .error _ => cfg0

/-- A state mid-run: bronze and silver done, gold being enriched. -/
def sGold : ETLState :=
  { initialState "clean the data" "cat.sch.tbl" "rules" "t0" with
    current_layer := "gold",
    layers_completed := ["bronze", "silver"],
    layers_remaining := ["gold"],
    current_table_output := "cat.sch_gold.tbl_gold",
    execution_status := "success" }

/-- A state about to be reviewed whose single query will fail the syntax
check. -/
def sReview : ETLState :=
  { initialState "clean the data" "cat.sch.tbl" "rules" "t0" with
    sql_queries := ["SELEC broken"] }

/-- A syntax-validation stream that rejects every query. -/
def rejectAll : Nat → Validation := fun _ => ⟨false, "PARSE_SYNTAX_ERROR"⟩

/-- A state whose code generation degraded to the safe default: an empty
`sql_queries` set (the `except Exception` fallback of the codegen agent). -/
def sNoQueries : ETLState :=
  { initialState "clean the data" "cat.sch.tbl" "rules" "t0" with
    error_log := ["CodeGen error: boom"] }

/-- The `LayerContext` value the enrichment step builds for the bronze
layer of the `envAllGood` run from `cfg0`. -/
def bronzeCtxVal : LayerContext :=
  { layer_name := "bronze", table_name := "cat.sch_bronze.tbl_bronze",
    schema := ⟨1, ["c1"]⟩, sample_data := [], row_count := 10,
    data_quality_metrics := ⟨1, 0, []⟩, transformation_summary := "plan",
    execution_timestamp := "2025-11-14T00:00:00",
    pr_url := "https://example.test/pr", pr_merged := true }

/-- The terminal configuration of the `envAllGood` run continued from
`cfgAfterBronze`. -/
def cfgFinal : Config :=
  match runFrom envAllGood 13 6 cfgAfterBronze with
  | .ok c => c
  | .error _ => cfg0

/-- A state as it stands at the router after the bronze enrichment:
bronze completed and removed from the remaining layers, but
`current_layer` not yet advanced. -/
def sMid : ETLState :=
  { initialState "clean the data" "cat.sch.tbl" "rules" "t0" with
    current_layer := "bronze",
    layers_completed := ["bronze"],
    layers_remaining := ["silver", "gold"] }

/-- A state entering enrichment while its PR is still unmerged: the
executor returned early with `execution_status = "awaiting_pr_merge"`. -/
def sAwait : ETLState :=
  { initialState "clean the data" "cat.sch.tbl" "rules" "t0" with
    current_layer := "bronze",
    execution_status := "awaiting_pr_merge",
    current_table_output := "cat.sch_bronze.tbl_bronze" }

/-- Decidable equality for collaborator-call results, used to evaluate
concrete runs. -/
instance {ε α : Type} [DecidableEq ε] [DecidableEq α] : DecidableEq (Except ε α)
  | .ok a, .ok b =>
      if h : a = b then .isTrue (by rw [h]) else .isFalse (by intro he; cases he; exact h rfl)
  | .ok _, .error _ => .isFalse (by intro he; cases he)
  | .error _, .ok _ => .isFalse (by intro he; cases he)
  | .error a, .error b =>
      if h : a = b then .isTrue (by rw [h]) else .isFalse (by intro he; cases he; exact h rfl)

/-! ## Helper lemmas -/


theorem sameLayerFields_refl (s : ETLState) : SameLayerFields s s :=
  ⟨rfl, rfl, rfl, rfl, rfl, rfl, rfl⟩

theorem plannerCall_frame (llm : PlannerLLM) (s : ETLState) :
    SameLayerFields s (plannerCall llm s) := by
  cases llm <;> exact ⟨rfl, rfl, rfl, rfl, rfl, rfl, rfl⟩

theorem reviewerCall_frame (validate : Nat → Validation) (llm : ReviewLLM) (s : ETLState) :
    SameLayerFields s (reviewerCall validate llm s) := by
  cases llm with
  | parsed status score comments =>
      unfold reviewerCall
      dsimp only
      split <;> exact ⟨rfl, rfl, rfl, rfl, rfl, rfl, rfl⟩
  | jsonError => exact ⟨rfl, rfl, rfl, rfl, rfl, rfl, rfl⟩
  | exn msg => exact ⟨rfl, rfl, rfl, rfl, rfl, rfl, rfl⟩

theorem prCreatorCall_frame (pn : Nat) (u b : String) (s : ETLState) :
    SameLayerFields s (prCreatorCall pn u b s) :=
  ⟨rfl, rfl, rfl, rfl, rfl, rfl, rfl⟩

theorem summaryCall_frame (llm : SummaryLLM) (s : ETLState) :
    SameLayerFields s (summaryCall llm s) := by
  cases llm <;> exact ⟨rfl, rfl, rfl, rfl, rfl, rfl, rfl⟩

theorem codegenCall_frame (llm : CodegenLLM) (s s' : ETLState)
    (h : codegenCall llm s = .ok s') : SameLayerFields s s' := by
  unfold codegenCall at h
  split at h
  · cases llm <;> (injection h with h; subst h; exact ⟨rfl, rfl, rfl, rfl, rfl, rfl, rfl⟩)
  · exact absurd h (by simp)

theorem executorCall_frame (merged : Bool) (outcome : ExecOutcome) (s s' : ETLState)
    (h : executorCall merged outcome s = .ok s') : SameLayerFields s s' := by
  simp only [executorCall] at h
  split at h
  · injection h with h; subst h; exact ⟨rfl, rfl, rfl, rfl, rfl, rfl, rfl⟩
  · split at h
    · cases outcome with
      | ok status rows dq err =>
          simp only at h
          split at h <;> (injection h with h; subst h; exact ⟨rfl, rfl, rfl, rfl, rfl, rfl, rfl⟩)
      | raised msg =>
          injection h with h; subst h; exact ⟨rfl, rfl, rfl, rfl, rfl, rfl, rfl⟩
    · exact absurd h (by simp)



theorem ctxMono_refl (s : ETLState) : CtxMono s s :=
  ⟨fun _ h => h, fun _ h => h, fun _ h => h⟩

theorem nodeOfName_planner_eq : nodeOfName "planner" = some Node.planner := by decide

theorem nodeOfName_pr_creator_eq : nodeOfName "pr_creator" = some Node.pr_creator := by decide

theorem nodeOfName_summary_eq : nodeOfName "summary" = some Node.summary := by decide

theorem ctxMono_trans {s t u : ETLState} (h1 : CtxMono s t) (h2 : CtxMono t u) :
    CtxMono s u :=
  ⟨fun v hv => h2.1 v (h1.1 v hv), fun v hv => h2.2.1 v (h1.2.1 v hv),
   fun v hv => h2.2.2 v (h1.2.2 v hv)⟩

theorem ctxMono_of_frame {s t : ETLState} (hf : SameLayerFields s t) : CtxMono s t :=
  ⟨fun _ hv => hf.2.2.2.2.1 ▸ hv, fun _ hv => hf.2.2.2.2.2.1 ▸ hv,
   fun _ hv => hf.2.2.2.2.2.2 ▸ hv⟩

theorem inv_transfer {s t : ETLState} {n1 n2 : Node}
    (hf : SameLayerFields s t) (hInv : Inv ⟨n1, s⟩)
    (hcyc : cycleNode n2 = true → cycleNode n1 = true) : Inv ⟨n2, t⟩ := by
  obtain ⟨hT, hC, hR, hcur, hb, hsv, hg⟩ := hf
  obtain ⟨⟨ht, k, hk, hc, hr⟩, ⟨hmb, hms, hmg⟩, hhead⟩ := hInv
  refine ⟨⟨by rw [hT, ht], k, hk, by rw [hC, hc], by rw [hR, hr]⟩,
          ⟨?_, ?_, ?_⟩, fun h2 => by rw [hR, hcur]; exact hhead (hcyc h2)⟩
  · rw [hb, hC]; exact hmb
  · rw [hsv, hC]; exact hms
  · rw [hg, hC]; exact hmg

theorem remaining_ne_nil {s : ETLState} {n1 : Node} (hInv : Inv ⟨n1, s⟩)
    (hc : cycleNode n1 = true) : s.layers_remaining ≠ [] := by
  intro he
  have := hInv.2.2 hc
  rw [he] at this
  simp at this



theorem stepRun_spec {env : Env} {n : Nat} {c c' : Config}
    (hInv : Inv c) (h : stepRun env n c = .ok c') :
    Inv c' ∧ CtxMono c.s c'.s ∧
    (c.node ≠ .done →
      (c.node = .context_enrichment → (env.analysis n).isSuccess = true) →
      mu c' < mu c ∧
      (if c.node = .planner then 1 else 0) + pvBound c' ≤ pvBound c) := by
  obtain ⟨nd, s⟩ := c
  cases nd with
  | planner =>
      simp only [stepRun] at h
      injection h with h
      subst h
      have hf := plannerCall_frame (env.planner n) s
      have hlen : s.layers_remaining ≠ [] := remaining_ne_nil hInv rfl
      have hR := hf.2.2.1
      refine ⟨inv_transfer hf hInv (fun _ => rfl), ctxMono_of_frame hf, fun _ _ => ?_⟩
      have h1 : 0 < s.layers_remaining.length := List.length_pos.mpr hlen
      constructor
      · simp only [mu, rank, hR]; omega
      · simp only [pvBound, hR, if_pos]; omega
  | codegen =>
      simp only [stepRun] at h
      cases hx : codegenCall (env.codegen n) s with
      | ok s2 =>
          rw [hx] at h
          injection h with h
          subst h
          have hf := codegenCall_frame _ _ _ hx
          have hR := hf.2.2.1
          refine ⟨inv_transfer hf hInv (fun _ => rfl), ctxMono_of_frame hf, fun _ _ => ?_⟩
          constructor
          · simp only [mu, rank, hR]; omega
          · simp only [pvBound, hR]; rw [if_neg (by decide)]; omega
      | error e => rw [hx] at h; exact absurd h (by simp)
  | reviewer =>
      simp only [stepRun, should_create_pr] at h
      have hf := reviewerCall_frame (env.validate n) (env.review n) s
      have hR := hf.2.2.1
      by_cases hap : (reviewerCall (env.validate n) (env.review n) s).review_status = "APPROVED"
      · rw [if_pos hap] at h
        rw [nodeOfName_pr_creator_eq] at h
        injection h with h
        subst h
        refine ⟨inv_transfer hf hInv (fun _ => rfl), ctxMono_of_frame hf, fun _ _ => ?_⟩
        constructor
        · simp only [mu, rank, hR]; omega
        · simp only [pvBound, hR]; rw [if_neg (by decide)]; omega
      · rw [if_neg hap] at h
        rw [nodeOfName_summary_eq] at h
        injection h with h
        subst h
        refine ⟨inv_transfer hf hInv (fun h2 => absurd h2 (by simp [cycleNode])),
                ctxMono_of_frame hf, fun _ _ => ?_⟩
        constructor
        · simp only [mu, rank, hR]; omega
        · simp only [pvBound, hR]; rw [if_neg (by decide)]; omega
  | pr_creator =>
      simp only [stepRun] at h
      injection h with h
      subst h
      have hf := prCreatorCall_frame (env.prNumber n) (env.prUrl n) (env.prBranch n) s
      have hR := hf.2.2.1
      refine ⟨inv_transfer hf hInv (fun _ => rfl), ctxMono_of_frame hf, fun _ _ => ?_⟩
      constructor
      · simp only [mu, rank, hR]; omega
      · simp only [pvBound, hR]; rw [if_neg (by decide)]; omega
  | executor =>
      simp only [stepRun] at h
      cases hx : executorCall (env.merged n) (env.exec n) s with
      | ok s2 =>
          rw [hx] at h
          injection h with h
          subst h
          have hf := executorCall_frame _ _ _ _ hx
          have hR := hf.2.2.1
          refine ⟨inv_transfer hf hInv (fun _ => rfl), ctxMono_of_frame hf, fun _ _ => ?_⟩
          constructor
          · simp only [mu, rank, hR]; omega
          · simp only [pvBound, hR]; rw [if_neg (by decide)]; omega
      | error e => rw [hx] at h; exact absurd h (by simp)
  | summary =>
      simp only [stepRun] at h
      injection h with h
      subst h
      have hf := summaryCall_frame (env.summary n) s
      refine ⟨inv_transfer hf hInv (fun h2 => absurd h2 (by simp [cycleNode])),
              ctxMono_of_frame hf, fun _ _ => ?_⟩
      constructor
      · simp only [mu, rank]; omega
      · simp [pvBound]
  | done =>
      simp only [stepRun] at h
      injection h with h
      subst h
      exact ⟨hInv, ctxMono_refl s, fun hd => absurd rfl hd⟩
  | context_enrichment =>
      obtain ⟨⟨ht, k, hk, hc, hr⟩, ⟨hmb, hms, hmg⟩, hhead⟩ := hInv
      have hhd := hhead rfl
      cases hA : env.analysis n with
      | failure err =>
          rcases hrm : s.layers_remaining with _ | ⟨a, l⟩
          · rw [hrm] at hhd; simp at hhd
          · simp only [stepRun, hA, contextEnrichmentCall, should_process_next_layer, hrm,
              nodeOfName_planner_eq] at h
            injection h with h
            subst h
            refine ⟨⟨⟨ht, k, hk, hc, by rw [← hrm]; exact hr⟩, ⟨hmb, hms, hmg⟩,
                     fun _ => rfl⟩,
                    ⟨fun _ hv => hv, fun _ hv => hv, fun _ hv => hv⟩,
                    fun _ hsucc => ?_⟩
            have hbad := hsucc rfl
            simp [AnalysisResult.isSuccess] at hbad
      | success sch sd rc dq =>
          simp only [stepRun, hA] at h
          interval_cases k
          · have hc0 : s.layers_completed = [] := by simpa [medallionLayers] using hc
            have hr0 : s.layers_remaining = ["bronze", "silver", "gold"] := by
              simpa [medallionLayers] using hr
            have hcur : s.current_layer = "bronze" := by
              rw [hr0] at hhd; simp at hhd; exact hhd.symm
            simp [contextEnrichmentCall, should_process_next_layer, nodeOfName, hcur, hc0, hr0] at h
            subst h
            refine ⟨⟨⟨ht, 1, by omega, by simp [medallionLayers], by simp [medallionLayers]⟩,
                     ⟨fun _ => by simp, ?_, ?_⟩, fun _ => rfl⟩,
                    ⟨?_, fun _ hv => hv, fun _ hv => hv⟩,
                    fun _ _ => ?_⟩
            · intro hv
              have := hms hv
              rw [hc0] at this
              simp at this
            · intro hv
              have := hmg hv
              rw [hc0] at this
              simp at this
            · intro v hv
              have := hmb (by rw [hv]; rfl)
              rw [hc0] at this
              simp at this
            · constructor
              · simp [mu, rank, hr0]
              · simp [pvBound, hr0]
          · have hc1 : s.layers_completed = ["bronze"] := by simpa [medallionLayers] using hc
            have hr1 : s.layers_remaining = ["silver", "gold"] := by
              simpa [medallionLayers] using hr
            have hcur : s.current_layer = "silver" := by
              rw [hr1] at hhd; simp at hhd; exact hhd.symm
            simp [contextEnrichmentCall, should_process_next_layer, nodeOfName, hcur, hc1, hr1] at h
            subst h
            refine ⟨⟨⟨ht, 2, by omega, by simp [medallionLayers], by simp [medallionLayers]⟩,
                     ⟨fun _ => by simp, fun _ => by simp, ?_⟩, fun _ => rfl⟩,
                    ⟨fun _ hv => hv, ?_, fun _ hv => hv⟩,
                    fun _ _ => ?_⟩
            · intro hv
              have := hmg hv
              rw [hc1] at this
              simp at this
            · intro v hv
              have := hms (by rw [hv]; rfl)
              rw [hc1] at this
              simp at this
            · constructor
              · simp [mu, rank, hr1]
              · simp [pvBound, hr1]
          · have hc2 : s.layers_completed = ["bronze", "silver"] := by
              simpa [medallionLayers] using hc
            have hr2 : s.layers_remaining = ["gold"] := by simpa [medallionLayers] using hr
            have hcur : s.current_layer = "gold" := by
              rw [hr2] at hhd; simp at hhd; exact hhd.symm
            simp [contextEnrichmentCall, should_process_next_layer, nodeOfName, hcur, hc2, hr2] at h
            subst h
            refine ⟨⟨⟨ht, 3, by omega, by simp [medallionLayers], by simp [medallionLayers]⟩,
                     ⟨fun _ => by simp, fun _ => by simp, fun _ => by simp⟩,
                     fun h2 => absurd h2 (by simp [cycleNode])⟩,
                    ⟨fun _ hv => hv, fun _ hv => hv, ?_⟩,
                    fun _ _ => ?_⟩
            · intro v hv
              have := hmg (by rw [hv]; rfl)
              rw [hc2] at this
              simp at this
            · constructor
              · simp [mu, rank, hr2]
              · simp [pvBound, hr2]
          · rw [hr] at hhd
            simp [medallionLayers] at hhd



theorem initConfig_inv (q st rules t0 : String) : Inv (initConfig q st rules t0) := by
  refine ⟨⟨rfl, 0, by omega, rfl, rfl⟩, ⟨?_, ?_, ?_⟩, fun _ => rfl⟩ <;>
    (intro h; simp [initConfig, initialState] at h)

theorem runFrom_inv {env : Env} : ∀ (fuel n : Nat) {c c' : Config},
    Inv c → runFrom env fuel n c = .ok c' → Inv c' ∧ CtxMono c.s c'.s := by
  intro fuel
  induction fuel with
  | zero =>
      intro n c c' hInv h
      injection h with h
      subst h
      exact ⟨hInv, ctxMono_refl _⟩
  | succ fuel ih =>
      intro n c c' hInv h
      simp only [runFrom] at h
      by_cases hd : c.node = .done
      · rw [if_pos hd] at h
        injection h with h
        subst h
        exact ⟨hInv, ctxMono_refl _⟩
      · rw [if_neg hd] at h
        cases hs : stepRun env n c with
        | ok c2 =>
            rw [hs] at h
            have spec := stepRun_spec hInv hs
            have rest := ih (n + 1) spec.1 h
            exact ⟨rest.1, ctxMono_trans spec.2.1 rest.2⟩
        | error e => rw [hs] at h; exact absurd h (by simp)

theorem mu_zero_done {c : Config} (h : mu c = 0) : c.node = .done := by
  obtain ⟨nd, s⟩ := c
  cases nd <;> simp [mu, rank] at h ⊢

theorem runFrom_done {env : Env} (hA : ∀ m, (env.analysis m).isSuccess = true) :
    ∀ (fuel n : Nat) {c c' : Config}, Inv c → mu c ≤ fuel →
    runFrom env fuel n c = .ok c' → c'.node = .done := by
  intro fuel
  induction fuel with
  | zero =>
      intro n c c' _ hmu h
      injection h with h
      subst h
      exact mu_zero_done (by omega)
  | succ fuel ih =>
      intro n c c' hInv hmu h
      simp only [runFrom] at h
      by_cases hd : c.node = .done
      · rw [if_pos hd] at h
        injection h with h
        subst h
        exact hd
      · rw [if_neg hd] at h
        cases hs : stepRun env n c with
        | ok c2 =>
            rw [hs] at h
            have spec := stepRun_spec hInv hs
            have hdec := (spec.2.2 hd (fun _ => hA n)).1
            exact ih (n + 1) spec.1 (by omega) h
        | error e => rw [hs] at h; exact absurd h (by simp)

theorem plannerVisits_le {env : Env} (hA : ∀ m, (env.analysis m).isSuccess = true) :
    ∀ (fuel n : Nat) {c : Config}, Inv c → plannerVisits env fuel n c ≤ pvBound c := by
  intro fuel
  induction fuel with
  | zero => intro n c _; simp [plannerVisits]
  | succ fuel ih =>
      intro n c hInv
      simp only [plannerVisits]
      by_cases hd : c.node = .done
      · rw [if_pos hd]; omega
      · rw [if_neg hd]
        cases hs : stepRun env n c with
        | ok c2 =>
            dsimp only
            have spec := stepRun_spec hInv hs
            have hpv := (spec.2.2 hd (fun _ => hA n)).2
            have hrest := ih (n + 1) spec.1
            omega
        | error e =>
            dsimp only
            by_cases hp : c.node = .planner
            · rw [if_pos hp]
              obtain ⟨nd, s⟩ := c
              cases hp
              have hlen : s.layers_remaining ≠ [] := remaining_ne_nil hInv rfl
              have : 0 < s.layers_remaining.length := List.length_pos.mpr hlen
              simp only [pvBound]
              omega
            · rw [if_neg hp]
              omega

theorem reach_inv {q st rules t0 : String} {c : Config}
    (h : Reach q st rules t0 c) : Inv c := by
  induction h with
  | init => exact initConfig_inv q st rules t0
  | step env n _ hs ih => exact (stepRun_spec ih hs).1

theorem reach_runFrom {q st rules t0 : String} {env : Env} :
    ∀ (fuel n : Nat) {c c' : Config}, Reach q st rules t0 c →
    runFrom env fuel n c = .ok c' → Reach q st rules t0 c' := by
  intro fuel
  induction fuel with
  | zero =>
      intro n c c' hr h
      injection h with h
      subst h
      exact hr
  | succ fuel ih =>
      intro n c c' hr h
      simp only [runFrom] at h
      by_cases hd : c.node = .done
      · rw [if_pos hd] at h
        injection h with h
        subst h
        exact hr
      · rw [if_neg hd] at h
        cases hs : stepRun env n c with
        | ok c2 =>
            rw [hs] at h
            exact ih (n + 1) (Reach.step env n hr hs) h
        | error e => rw [hs] at h; exact absurd h (by simp)



/-! ## Claim theorems -/

/-- C1 (counterexample): the claim that every run reaches the terminal
summary step in a bounded number of steps and visits Plan at most 3 times
fails on the code.  When every enrichment analysis fails (a recoverable,
non-fatal collaborator error), `layers_remaining` never shrinks, so the
router after Enrich loops back to the planner forever: within 24 steps
the planner is already visited 4 times, the run is again at the planner
node, and all three layers are still remaining. -/
theorem C1_counterexample :
    3 < plannerVisits envEnrichFails 24 0 cfg0 ∧
    (runFrom envEnrichFails 24 0 cfg0).toOption.map Config.node = some Node.planner ∧
    (runFrom envEnrichFails 24 0 cfg0).toOption.map (fun c => c.s.layers_remaining)
      = some ["bronze", "silver", "gold"] :=
  ⟨by decide, by decide, by decide⟩

/-- C1 (amended): for every run from the initial state in which every
`analyze_layer_output` call of the Enrich step succeeds, the planner is
visited at most 3 times (whatever the fuel), and 19 transitions suffice
to reach the terminal node; without that assumption an enrichment failure
loops the run back to Plan with `layers_remaining` unchanged, so no
uniform step bound exists. -/
theorem C1_planner_visits_and_termination (env : Env) (q st rules t0 : String)
    (hA : ∀ m, (env.analysis m).isSuccess = true) :
    (∀ fuel, plannerVisits env fuel 0 (initConfig q st rules t0) ≤ 3) ∧
    (∀ fuel, 19 ≤ fuel → ∀ c', runFrom env fuel 0 (initConfig q st rules t0) = Except.ok c' →
      c'.node = Node.done) := by
  constructor
  · intro fuel
    have h := plannerVisits_le hA fuel 0 (initConfig_inv q st rules t0)
    have hb : pvBound (initConfig q st rules t0) = 3 := rfl
    omega
  · intro fuel hf c' h
    have hmu : mu (initConfig q st rules t0) = 19 := rfl
    exact runFrom_done hA fuel 0 (initConfig_inv q st rules t0) (by omega) h

/-- C1 (witness): under the all-success response stream the concrete run
from the initial configuration visits the planner at most 3 times and is
done within 19 steps. -/
theorem C1_witness :
    (∀ m, (envAllGood.analysis m).isSuccess = true) ∧
    plannerVisits envAllGood 19 0 cfg0 ≤ 3 ∧
    ∀ c', runFrom envAllGood 19 0 cfg0 = Except.ok c' → c'.node = Node.done :=
  ⟨fun _ => rfl,
   (C1_planner_visits_and_termination envAllGood "clean the data" "cat.sch.tbl" "rules" "t0"
      (fun _ => rfl)).1 19,
   (C1_planner_visits_and_termination envAllGood "clean the data" "cat.sch.tbl" "rules" "t0"
      (fun _ => rfl)).2 19 (by omega)⟩

/-- C2 (counterexample): when the Enrich analysis for "gold" fails, the
layer is indeed kept in `layers_remaining` and the failure is logged —
but the router after Enrich then returns `"planner"`, not `"summary"`:
the run loops back to Plan instead of routing to Finish as the claim
states. -/
theorem C2_counterexample :
    (contextEnrichmentCall (AnalysisResult.failure "analysis failed") "t" sGold).layers_remaining
        = ["gold"] ∧
    (contextEnrichmentCall (AnalysisResult.failure "analysis failed") "t" sGold).error_log
        = ["Context enrichment failed: analysis failed"] ∧
    (should_process_next_layer
        (contextEnrichmentCall (AnalysisResult.failure "analysis failed") "t" sGold)).1
        = "planner" ∧
    (should_process_next_layer
        (contextEnrichmentCall (AnalysisResult.failure "analysis failed") "t" sGold)).1
        ≠ "summary" :=
  ⟨by decide, by decide, by decide, by decide⟩

/-- C2 (amended): if the Enrich analysis fails, the layer is not added to
`layers_completed`, `layers_remaining` is unchanged, an enrichment-failure
entry is appended to `error_log` — and the router evaluated after Enrich
then routes back to the planner (retrying the layer) whenever
`layers_remaining` is non-empty; it routes to the summary step only when
`layers_remaining` is empty. -/
theorem C2_enrich_failure_behavior (err now : String) (s : ETLState) :
    (contextEnrichmentCall (AnalysisResult.failure err) now s).layers_completed
        = s.layers_completed ∧
    (contextEnrichmentCall (AnalysisResult.failure err) now s).layers_remaining
        = s.layers_remaining ∧
    (contextEnrichmentCall (AnalysisResult.failure err) now s).error_log
        = s.error_log ++ ["Context enrichment failed: " ++ err] ∧
    (s.layers_remaining ≠ [] →
      (should_process_next_layer (contextEnrichmentCall (AnalysisResult.failure err) now s)).1
        = "planner") ∧
    (s.layers_remaining = [] →
      (should_process_next_layer (contextEnrichmentCall (AnalysisResult.failure err) now s)).1
        = "summary") := by
  refine ⟨rfl, rfl, rfl, ?_, ?_⟩
  · intro hne
    rcases hrm : s.layers_remaining with _ | ⟨a, l⟩
    · exact absurd hrm hne
    · simp [contextEnrichmentCall, should_process_next_layer, hrm]
  · intro he
    simp [contextEnrichmentCall, should_process_next_layer, he]

/-- C2 (witness): the amended behavior at the concrete "gold" state. -/
theorem C2_witness :
    sGold.layers_remaining ≠ [] ∧
    (should_process_next_layer
        (contextEnrichmentCall (AnalysisResult.failure "boom") "t" sGold)).1 = "planner" :=
  ⟨by decide, (C2_enrich_failure_behavior "boom" "t" sGold).2.2.2.1 (by decide)⟩

/-- C3 (counterexample): the router after Enrich is not state-preserving:
on a state whose `current_layer` is "bronze" and whose remaining layers
are ["silver", "gold"] it assigns `current_layer := "silver"`, so the
returned state differs from the input state. -/
theorem C3_counterexample :
    sMid.current_layer = "bronze" ∧
    (should_process_next_layer sMid).2.current_layer = "silver" ∧
    (should_process_next_layer sMid).2 ≠ sMid :=
  ⟨by decide, by decide, by decide⟩

/-- C3 (amended): both routers are deterministic functions of the state
and total, and the Review router leaves the state unchanged; but the
Enrich router mutates `current_layer` to the head of `layers_remaining`
whenever that list is non-empty (and only then), leaving every other
field unchanged. -/
theorem C3_router_characterization (s : ETLState) :
    (should_create_pr s).2 = s ∧
    ((should_create_pr s).1 = "pr_creator" ∨ (should_create_pr s).1 = "summary") ∧
    (s.layers_remaining = [] → should_process_next_layer s = ("summary", s)) ∧
    (∀ x l, s.layers_remaining = x :: l →
      should_process_next_layer s = ("planner", { s with current_layer := x })) := by
  refine ⟨?_, ?_, ?_, ?_⟩
  · unfold should_create_pr; split <;> rfl
  · unfold should_create_pr; split
    · exact Or.inl rfl
    · exact Or.inr rfl
  · intro he; simp [should_process_next_layer, he]
  · intro x l hx; simp [should_process_next_layer, hx]

/-- C3 (witness): the amended characterization evaluated at the concrete
mid-run state. -/
theorem C3_witness :
    should_process_next_layer sMid = ("planner", { sMid with current_layer := "silver" }) :=
  (C3_router_characterization sMid).2.2.2 "silver" ["gold"] rfl

/-- C4: the Execute step sets `execution_status = "success"` only when
the `check_pr_status` call of that same invocation observed
`merged == true`; whenever `merged` is not true it performs no
transformation and returns the state with only `execution_status` set to
`"awaiting_pr_merge"` (and `workflow_status` to `"awaiting_merge"`). -/
theorem C4_executor_approval_gating (merged : Bool) (outcome : ExecOutcome) (s s' : ETLState)
    (h : executorCall merged outcome s = Except.ok s') :
    (s'.execution_status = "success" → merged = true) ∧
    (merged = false →
      s' = { s with execution_status := "awaiting_pr_merge",
                    workflow_status := "awaiting_merge" }) := by
  cases merged with
  | false =>
      simp only [executorCall, if_pos rfl] at h
      injection h with h
      subst h
      refine ⟨fun hst => ?_, fun _ => rfl⟩
      simp at hst
  | true => exact ⟨fun _ => rfl, fun hf => absurd hf (by simp)⟩

/-- C4 (witness): the gating theorem applied to a concrete unmerged-PR
invocation whose execution tool would have reported success. -/
theorem C4_witness :
    (({ sGold with execution_status := "awaiting_pr_merge",
                   workflow_status := "awaiting_merge" } : ETLState).execution_status = "success" →
      false = true) ∧
    (false = false →
      ({ sGold with execution_status := "awaiting_pr_merge",
                    workflow_status := "awaiting_merge" } : ETLState)
        = { sGold with execution_status := "awaiting_pr_merge",
                       workflow_status := "awaiting_merge" }) :=
  C4_executor_approval_gating false (ExecOutcome.ok "success" 10 [] "") sGold
    { sGold with execution_status := "awaiting_pr_merge", workflow_status := "awaiting_merge" }
    (by decide)

/-- C5: in every state reachable from the initial state,
`layers_completed` followed by `layers_remaining` is exactly
`target_layers` (so the two lists are a partition of the target layers,
`layers_completed` is a prefix of `target_layers` in original order, and
`layers_remaining` the matching suffix), and the two lists are
disjoint. -/
theorem C5_partition_invariant (q st rules t0 : String) (c : Config)
    (h : Reach q st rules t0 c) :
    c.s.layers_completed ++ c.s.layers_remaining = c.s.target_layers ∧
    ∀ x, x ∈ c.s.layers_completed → x ∉ c.s.layers_remaining := by
  obtain ⟨⟨ht, k, hk, hc, hr⟩, -, -⟩ := reach_inv h
  constructor
  · rw [ht, hc, hr]; exact List.take_append_drop k medallionLayers
  · intro x hx hx2
    rw [hc] at hx
    rw [hr] at hx2
    interval_cases k <;> simp_all [medallionLayers]

/-- C5 (witness): the partition invariant at the initial configuration. -/
theorem C5_witness :
    ([] : List String) ++ ["bronze", "silver", "gold"] = ["bronze", "silver", "gold"] ∧
    ∀ x, x ∈ ([] : List String) → x ∉ ["bronze", "silver", "gold"] :=
  C5_partition_invariant "clean the data" "cat.sch.tbl" "rules" "t0" cfg0 Reach.init

/-- C6: once a context slot (`bronze_context`, `silver_context` or
`gold_context`) holds a `LayerContext` in a reachable state, every
continuation of the run (any fuel, any collaborator responses) leaves
that slot holding the same value. -/
theorem C6_context_monotonicity (q st rules t0 : String) (env : Env) (fuel n : Nat)
    (c c' : Config) (hreach : Reach q st rules t0 c)
    (hrun : runFrom env fuel n c = Except.ok c') :
    (∀ v, c.s.bronze_context = some v → c'.s.bronze_context = some v) ∧
    (∀ v, c.s.silver_context = some v → c'.s.silver_context = some v) ∧
    (∀ v, c.s.gold_context = some v → c'.s.gold_context = some v) :=
  (runFrom_inv fuel n (reach_inv hreach) hrun).2

/-- C6 (witness): the bronze context captured after the bronze layer of
the concrete all-success run is still intact in the terminal state. -/
theorem C6_witness :
    cfgAfterBronze.s.bronze_context = some bronzeCtxVal ∧
    runFrom envAllGood 13 6 cfgAfterBronze = Except.ok cfgFinal ∧
    cfgFinal.s.bronze_context = some bronzeCtxVal :=
  ⟨by decide, by decide,
   (C6_context_monotonicity "clean the data" "cat.sch.tbl" "rules" "t0" envAllGood 13 6
      cfgAfterBronze cfgFinal
      (@reach_runFrom "clean the data" "cat.sch.tbl" "rules" "t0" envAllGood 6 0 cfg0
        cfgAfterBronze Reach.init (by decide))
      (by decide)).1 bronzeCtxVal (by decide)⟩

/-- C7: whenever at least one SQL query fails the independent syntax
check, the Review step forces `review_status = "NEEDS_REVISION"` whatever
the advisory LLM verdict (parsed, unparseable, or erroring), caps
`code_quality_score` at the fixed ceiling 60, and the Review router then
sends the run to the summary step. -/
theorem C7_syntax_gate_forces_revision (validate : Nat → Validation) (llm : ReviewLLM)
    (s : ETLState) (h : syntaxValid s.sql_queries.length validate = false) :
    (reviewerCall validate llm s).review_status = "NEEDS_REVISION" ∧
    (reviewerCall validate llm s).code_quality_score ≤ 60 ∧
    (should_create_pr (reviewerCall validate llm s)).1 = "summary" := by
  cases llm with
  | parsed status score comments =>
      simp [reviewerCall, h, should_create_pr, min_le_right]
  | jsonError =>
      simp [reviewerCall, h, should_create_pr]
      norm_num
  | exn msg =>
      simp [reviewerCall, h, should_create_pr]

/-- C7 (witness): a concrete review whose single query fails validation
is forced to NEEDS_REVISION even though the advisory reviewer said
APPROVED with score 95. -/
theorem C7_witness :
    syntaxValid sReview.sql_queries.length rejectAll = false ∧
    ((reviewerCall rejectAll (ReviewLLM.parsed "APPROVED" 95 []) sReview).review_status
        = "NEEDS_REVISION" ∧
     (reviewerCall rejectAll (ReviewLLM.parsed "APPROVED" 95 []) sReview).code_quality_score
        ≤ 60 ∧
     (should_create_pr
        (reviewerCall rejectAll (ReviewLLM.parsed "APPROVED" 95 []) sReview)).1 = "summary") :=
  ⟨by decide, C7_syntax_gate_forces_revision rejectAll (ReviewLLM.parsed "APPROVED" 95 []) sReview
    (by decide)⟩

/-- C8 (counterexample): on a state whose `sql_queries` is the empty
degraded default, the per-query syntax check passes vacuously, so when
the advisory reviewer output is unparseable the fallback sets
`review_status = "APPROVED"` (score 75) — review does not fail closed as
the claim states. -/
theorem C8_counterexample :
    sNoQueries.sql_queries = [] ∧
    (reviewerCall (fun _ => ⟨true, ""⟩) ReviewLLM.jsonError sNoQueries).review_status
        = "APPROVED" ∧
    (reviewerCall (fun _ => ⟨true, ""⟩) ReviewLLM.jsonError sNoQueries).code_quality_score
        = 75 :=
  ⟨by decide, by decide, by decide⟩

/-- C8 (amended): with an empty `sql_queries` set the syntax check is
vacuously true, so the Review step follows the advisory reviewer: the
JSON-decode fallback APPROVES with score 75, and a parsed verdict is
passed through unmodified; NEEDS_REVISION is not forced for degraded
artifacts. -/
theorem C8_empty_queries_review (validate : Nat → Validation) (s : ETLState)
    (h : s.sql_queries = []) :
    (reviewerCall validate ReviewLLM.jsonError s).review_status = "APPROVED" ∧
    (reviewerCall validate ReviewLLM.jsonError s).code_quality_score = 75 ∧
    ∀ status score comments,
      (reviewerCall validate (ReviewLLM.parsed status score comments) s).review_status
        = status := by
  have hsv : syntaxValid s.sql_queries.length validate = true := by
    rw [h]; rfl
  simp [reviewerCall, hsv]

/-- C8 (witness): the amended behavior at the concrete degraded state,
even with a validator that would reject every query. -/
theorem C8_witness :
    (reviewerCall rejectAll ReviewLLM.jsonError sNoQueries).review_status = "APPROVED" ∧
    (reviewerCall rejectAll ReviewLLM.jsonError sNoQueries).code_quality_score = 75 ∧
    ∀ status score comments,
      (reviewerCall rejectAll (ReviewLLM.parsed status score comments) sNoQueries).review_status
        = status :=
  C8_empty_queries_review rejectAll sNoQueries rfl

/-- C9 (counterexample): with `source_table = "badtable"` the codegen
step's bare `source_table.split(".")` unpacking raises; the server
catches the exception but returns the "Pipeline Execution Failed" text,
not a terminal `PipelineState` — so the caller does not always receive a
terminal state. -/
theorem C9_counterexample :
    run_full_medallion_pipeline envAllGood 19 "clean the data" "badtable" "rules" "t0" "t1"
      = PipelineOutcome.failedMsg
          "Pipeline execution failed: ValueError: source_table does not unpack into catalog.schema.table" ∧
    ∀ s, run_full_medallion_pipeline envAllGood 19 "clean the data" "badtable" "rules" "t0" "t1"
      ≠ PipelineOutcome.completed s := by
  have h1 : run_full_medallion_pipeline envAllGood 19 "clean the data" "badtable" "rules" "t0" "t1"
      = PipelineOutcome.failedMsg
          "Pipeline execution failed: ValueError: source_table does not unpack into catalog.schema.table" := by
    decide
  refine ⟨h1, fun s hs => ?_⟩
  rw [h1] at hs
  exact PipelineOutcome.noConfusion hs

/-- C9 (amended): the caller never receives a raw exception — the entry
point's `try`/`except` converts any core exception into a
"Pipeline Execution Failed" report — but on such an exception the caller
receives that error text instead of a `PipelineState`; a terminal state
is returned exactly when the graph run completes normally. -/
theorem C9_caller_outcome (env : Env) (fuel : Nat) (q st rules t0 t1 : String) :
    (∃ s, run_full_medallion_pipeline env fuel q st rules t0 t1
        = PipelineOutcome.completed s) ∨
    (∃ e, run_full_medallion_pipeline env fuel q st rules t0 t1
        = PipelineOutcome.failedMsg ("Pipeline execution failed: " ++ e)) := by
  unfold run_full_medallion_pipeline
  cases runFrom env fuel 0 (initConfig q st rules t0) with
  | ok c => exact Or.inl ⟨_, rfl⟩
  | error e => exact Or.inr ⟨e, rfl⟩

/-- C10: the Enrich step marks the current layer completed (appends it to
`layers_completed`, removes its first occurrence from `layers_remaining`)
whenever the analysis of `current_table_output` succeeds, without
consulting `execution_status`: the hypothesis allows the execution to have
failed or to be still awaiting the PR merge, and `execution_status` is
left untouched. -/
theorem C10_completion_ignores_execution_status (sch : SchemaInfo) (sd : List Row)
    (rc : Nat) (dq : QualityMetrics) (now : String) (s : ETLState)
    (_hstat : s.execution_status = "failed" ∨ s.execution_status = "awaiting_pr_merge")
    (h1 : s.current_layer ∉ s.layers_completed)
    (h2 : s.current_layer ∈ s.layers_remaining) :
    (contextEnrichmentCall (AnalysisResult.success sch sd rc dq) now s).layers_completed
        = s.layers_completed ++ [s.current_layer] ∧
    (contextEnrichmentCall (AnalysisResult.success sch sd rc dq) now s).layers_remaining
        = s.layers_remaining.erase s.current_layer ∧
    (contextEnrichmentCall (AnalysisResult.success sch sd rc dq) now s).execution_status
        = s.execution_status := by
  by_cases hb : s.current_layer = "bronze"
  · rw [hb] at h1 h2; simp [contextEnrichmentCall, hb, h1, h2]
  · by_cases hsl : s.current_layer = "silver"
    · rw [hsl] at h1 h2; simp [contextEnrichmentCall, hb, hsl, h1, h2]
    · by_cases hg : s.current_layer = "gold"
      · rw [hg] at h1 h2; simp [contextEnrichmentCall, hb, hsl, hg, h1, h2]
      · simp [contextEnrichmentCall, hb, hsl, hg, h1, h2]

/-- C10 (witness): a bronze layer still awaiting its PR merge is marked
completed by a successful analysis. -/
theorem C10_witness :
    (contextEnrichmentCall (AnalysisResult.success ⟨1, ["c1"]⟩ [] 10 ⟨1, 0, []⟩) "t"
        sAwait).layers_completed = sAwait.layers_completed ++ [sAwait.current_layer] ∧
    (contextEnrichmentCall (AnalysisResult.success ⟨1, ["c1"]⟩ [] 10 ⟨1, 0, []⟩) "t"
        sAwait).layers_remaining = sAwait.layers_remaining.erase sAwait.current_layer ∧
    (contextEnrichmentCall (AnalysisResult.success ⟨1, ["c1"]⟩ [] 10 ⟨1, 0, []⟩) "t"
        sAwait).execution_status = sAwait.execution_status :=
  C10_completion_ignores_execution_status ⟨1, ["c1"]⟩ [] 10 ⟨1, 0, []⟩ "t" sAwait
    (Or.inr rfl) (by decide) (by decide)

end Medallion
